import Mathlib

/-
Verification of the CSV import / staging / promotion pipeline of the
personal-finance application (lib/services/csv-import-service.ts,
class CSVImportService, plus the /api/import/csv route that composes
parseCSVContent with importTransactions).

Strings are modelled as lists of characters; JS numbers that carry parsed
monetary amounts are modelled as rationals; the database reachable through
prisma is modelled as an explicit record of tables threaded through the
operations; store-assigned ids (cuid strings in the schema) are modelled as
naturals.  The calendar-date parser (new Date(...) validity) is an external
collaborator and is passed in as a Boolean predicate on date strings.
-/

set_option autoImplicit false

namespace CSVImport

instance {ε α : Type} [DecidableEq ε] [DecidableEq α] : DecidableEq (Except ε α) := fun x y =>
  match x, y with
  | .ok a, .ok b => if h : a = b then isTrue (by rw [h]) else isFalse (by simp [h])
  | .error a, .error b => if h : a = b then isTrue (by rw [h]) else isFalse (by simp [h])
  | .ok _, .error _ => isFalse (by simp)
  | .error _, .ok _ => isFalse (by simp)

/-- Whitespace test used by JS String.prototype.trim. -/
def isWS (c : Char) : Bool := c.isWhitespace

/-- Model of JS String.prototype.trim on a character list. -/
def trim (l : List Char) : List Char :=
  ((l.dropWhile isWS).reverse.dropWhile isWS).reverse

/-- Model of JS String.prototype.toLowerCase, per character. -/
def lower (l : List Char) : List Char := l.map Char.toLower

/-- Character-list view of a string literal. -/
def str (s : String) : List Char := s.toList

/-- parseCSVLine (lines 799-819): character loop with an in-quotes flag.
A double quote toggles the flag (and is itself dropped), a comma outside
quotes ends the current value, and every pushed value is trimmed.
Arguments: remaining characters, inQuotes flag, current accumulator,
values pushed so far. -/
def parseCSVLineAux : List Char → Bool → List Char → List (List Char) → List (List Char)
  | [], _, current, values => values ++ [trim current]
  | c :: rest, inQuotes, current, values =>
    if c = '"' then parseCSVLineAux rest (!inQuotes) current values
    else if c = ',' && !inQuotes then parseCSVLineAux rest inQuotes [] (values ++ [trim current])
    else parseCSVLineAux rest inQuotes (current ++ [c]) values

/-- parseCSVLine: tokenize one line. -/
def parseCSVLine (line : List Char) : List (List Char) :=
  parseCSVLineAux line false [] []

/-- The column role map built from the header (the mapping object of
detectColumnMapping): for each role, the zero-based column index if one
was assigned. -/
structure ColumnMapping where
  date : Option Nat
  description : Option Nat
  amount : Option Nat
  type : Option Nat
  category : Option Nat
deriving Repr, DecidableEq

/-- Header synonyms for the date role:
the regex /^(date|transaction\s?date|posted\s?date)$/i with the optional
whitespace expanded (the \s is modelled as the space character). -/
def datePatterns : List (List Char) :=
  [str "date", str "transaction date", str "transactiondate",
   str "posted date", str "posteddate"]

/-- Header synonyms for the description role: /^(description|memo|transaction|details?)$/i. -/
def descriptionPatterns : List (List Char) :=
  [str "description", str "memo", str "transaction", str "detail", str "details"]

/-- Header synonyms for the amount role: /^(amount|value|sum|total)$/i. -/
def amountPatterns : List (List Char) :=
  [str "amount", str "value", str "sum", str "total"]

/-- Header synonyms for the type role: /^(type|transaction\s?type|debit\/credit)$/i. -/
def typePatterns : List (List Char) :=
  [str "type", str "transaction type", str "transactiontype", str "debit/credit"]

/-- Header synonyms for the category role: /^(category|merchant|vendor)$/i. -/
def categoryPatterns : List (List Char) :=
  [str "category", str "merchant", str "vendor"]

/-- Case-insensitive anchored match of a header name against a pattern list. -/
def matchesRole (pats : List (List Char)) (name : List Char) : Bool :=
  pats.contains (lower name)

/-- One step of the column loop of detectColumnMapping: the trimmed column name is
tested against the role patterns in object-key order (date, description,
amount, type, category); the first matching role receives this column index,
overwriting any earlier column assigned to that role. -/
def assignColumn (m : ColumnMapping) (i : Nat) (tok : List Char) : ColumnMapping :=
  let name := trim tok
  if matchesRole datePatterns name then { m with date := some i }
  else if matchesRole descriptionPatterns name then { m with description := some i }
  else if matchesRole amountPatterns name then { m with amount := some i }
  else if matchesRole typePatterns name then { m with type := some i }
  else if matchesRole categoryPatterns name then { m with category := some i }
  else m

/-- The empty role map (no column assigned to any role). -/
def emptyMapping : ColumnMapping := ⟨none, none, none, none, none⟩

/-- The role-assignment loop of detectColumnMapping (lines 839-848). -/
def detectRoles (header : List (List Char)) : ColumnMapping :=
  header.enum.foldl (fun m p => assignColumn m p.1 p.2) emptyMapping

/-- JS truthiness of `mapping.date` inside the mandatory-role check
(line 851, `!mapping.date`): the value is either undefined or a column
index, and both undefined and the number 0 are falsy. -/
def truthyIdx : Option Nat → Bool
  | none => false
  | some i => decide (i ≠ 0)

/-- detectColumnMapping (lines 826-859): build the role map from the header
tokens, then apply the mandatory-role check.  The source tests
`!mapping.date || mapping.description === undefined || mapping.amount === undefined`,
so the date role is checked by JS truthiness while the other two are checked
against undefined. -/
def detectColumnMapping (header : List (List Char)) : Except String ColumnMapping :=
  let m := detectRoles header
  if !truthyIdx m.date || m.description.isNone || m.amount.isNone then
    .error "Required columns not found: date, description, and amount are mandatory"
  else .ok m

/-- Income/expense classification of a row or staged transaction.  In the
source this is the string union type of CSVImportRow.type; every row the
pipeline produces carries one of the two values. -/
inductive TxKind where
  | income
  | expense
deriving Repr, DecidableEq

/-- CSVImportRow (lib/types.ts lines 170-176): the normalized row produced by
mapCSVRow.  The amount is the parsed numeric magnitude. -/
structure CSVImportRow where
  date : List Char
  description : List Char
  amount : ℚ
  category : Option (List Char)
  type : TxKind
deriving Repr, DecidableEq

/-- Numeric value of a decimal-digit character. -/
def digitVal (c : Char) : Nat := c.toNat - '0'.toNat

/-- Value of a digit string read in base 10. -/
def digitsToNat (l : List Char) : Nat := l.foldl (fun a c => 10 * a + digitVal c) 0

/-- Model of JS parseFloat on the amount token: optional leading whitespace,
optional sign, an integer part, an optional fractional part, trailing
characters ignored; NaN (modelled as none) when no digit is read.  The
exponent form of a JS float literal is not modelled; the amount
tokens of the pipeline are plain decimals. -/
def parseFloat (s : List Char) : Option ℚ :=
  let t := s.dropWhile isWS
  let su : ℤ × List Char :=
    match t with
    | '-' :: r => (-1, r)
    | '+' :: r => (1, r)
    | _ => (1, t)
  let ip := su.2.takeWhile Char.isDigit
  let v := su.2.dropWhile Char.isDigit
  let fp :=
    match v with
    | '.' :: r => r.takeWhile Char.isDigit
    | _ => []
  if ip.isEmpty && fp.isEmpty then none
  else
    some (mkRat (su.1 * (digitsToNat ip * 10 ^ fp.length + digitsToNat fp)) (10 ^ fp.length))

/-- Token access values[i] for an optional column index: undefined when
the role is unmapped or the index is out of range. -/
def getTok (values : List (List Char)) : Option Nat → Option (List Char)
  | none => none
  | some i => values[i]?

/-- JS falsiness of an optional string value: undefined and the empty string
are falsy. -/
def strFalsy : Option (List Char) → Bool
  | none => true
  | some l => l.isEmpty

/-- Does the pattern occur at the start of the text? -/
def beginsWith : List Char → List Char → Bool
  | [], _ => true
  | _ :: _, [] => false
  | p :: ps, h :: hs => p = h && beginsWith ps hs

/-- Substring containment, the model of JS String.prototype.includes. -/
def containsSub (hay needle : List Char) : Bool :=
  match hay with
  | [] => needle.isEmpty
  | _ :: rest => beginsWith needle hay || containsSub rest needle

/-- Income-indicating substrings for the type token (line 888). -/
def incomeKeywords : List (List Char) :=
  [str "credit", str "deposit", str "income", str "+"]

/-- Expense-indicating substrings for the type token (line 890). -/
def expenseKeywords : List (List Char) :=
  [str "debit", str "withdrawal", str "expense", str "payment", str "-"]

/-- The trimmed date token of a row. -/
def dateTok (values : List (List Char)) (m : ColumnMapping) : Option (List Char) :=
  (getTok values m.date).map trim

/-- The trimmed description token of a row. -/
def descriptionTok (values : List (List Char)) (m : ColumnMapping) : Option (List Char) :=
  (getTok values m.description).map trim

/-- The trimmed amount token with currency symbols and thousands separators
removed (the replace of /[$,]/g at line 871). -/
def amountTok (values : List (List Char)) (m : ColumnMapping) : Option (List Char) :=
  (getTok values m.amount).map (fun t => (trim t).filter (fun c => !(c = '$' || c = ',')))

/-- The trimmed, lowercased type token of a row (line 872). -/
def typeTok (values : List (List Char)) (m : ColumnMapping) : Option (List Char) :=
  (getTok values m.type).map (fun t => lower (trim t))

/-- The kind decision of mapCSVRow (lines 884-896): expense is the declared
default; when a type column is mapped and its token is truthy, the token is
searched for the income keywords and then the expense keywords; otherwise
the sign of the parsed amount decides. -/
def decideKind (m : ColumnMapping) (typeStr : Option (List Char)) (amount : ℚ) : TxKind :=
  if m.type.isSome && !strFalsy typeStr then
    if incomeKeywords.any (fun k => containsSub (typeStr.getD []) k) then .income
    else if expenseKeywords.any (fun k => containsSub (typeStr.getD []) k) then .expense
    else .expense
  else
    if 0 < amount then .income else .expense

/-- mapCSVRow (lines 867-908): normalize one data row against the role map.
Returns none exactly where the source returns null: a falsy date,
description, or normalized amount token; a NaN amount; an amount that is
not strictly positive.  The stored amount is the absolute value of the
parsed amount. -/
def mapCSVRow (values : List (List Char)) (m : ColumnMapping) : Option CSVImportRow :=
  let date := dateTok values m
  let description := descriptionTok values m
  let amountStr := amountTok values m
  let typeStr := typeTok values m
  let category :=
    match m.category with
    | some i => (getTok values (some i)).map trim
    | none => none
  if strFalsy date || strFalsy description || strFalsy amountStr then none
  else
    match parseFloat (amountStr.getD []) with
    | none => none
    | some amount =>
      if amount ≤ 0 then none
      else
        some { date := date.getD [], description := description.getD [],
               amount := |amount|, category := category,
               type := decideKind m typeStr amount }

/-- A row of the transaction table (the staged transactions written by the
batch importer).  Store-assigned ids and user ids are modelled as naturals;
in the store they are nonempty cuid strings, so their JS truthiness never
fires. -/
structure Transaction where
  id : Nat
  userId : Nat
  type : TxKind
  amount : ℚ
  description : List Char
  date : List Char
  category : Option (List Char)
  source : List Char
  imported : Bool
  processed : Bool
deriving Repr, DecidableEq

/-- A row of the category table. -/
structure Category where
  id : Nat
  name : List Char
  userId : Nat
deriving Repr, DecidableEq

/-- A row of the income table as written by processTransactions. -/
structure IncomeRecord where
  amount : ℚ
  source : List Char
  description : List Char
  date : List Char
  userId : Nat
deriving Repr, DecidableEq

/-- A row of the expense table as written by processTransactions. -/
structure ExpenseRecord where
  amount : ℚ
  description : List Char
  date : List Char
  categoryId : Nat
  userId : Nat
deriving Repr, DecidableEq

/-- The store reachable through prisma, restricted to the tables the
pipeline touches, with the id counter the store uses to assign fresh ids. -/
structure DB where
  transactions : List Transaction
  incomes : List IncomeRecord
  expenses : List ExpenseRecord
  categories : List Category
  nextId : Nat
deriving Repr, DecidableEq

/-- CSVImportResult (lib/types.ts lines 178-186): the import report. -/
structure CSVImportResult where
  successful : Nat
  failed : Nat
  errors : List (Nat × String)
  preview : List CSVImportRow
deriving Repr, DecidableEq

/-- validateCSVRow (lines 770-792), returning the error when invalid.  The
modelled row always carries a date string, a description string, a numeric
amount, and one of the two kinds, so of the first JS guard only the numeric
falsiness of the amount (amount = 0) can fire, and the final membership
check of the type is always satisfied.  Date validity (the isNaN check on
new Date) is delegated to the external date-parser collaborator. -/
def validateCSVRow (validDate : List Char → Bool) (row : CSVImportRow) : Option String :=
  if row.date.isEmpty || row.description.isEmpty || decide (row.amount = 0) then
    some "Missing required fields: date, description, amount, or type"
  else if !validDate row.date then some "Invalid date format"
  else if row.amount ≤ 0 then some "Amount must be a positive number"
  else none

/-- The body of the importTransactions row loop (lines 453-498): the rows
are paired with their 1-based position in the csvData array.  An invalid
row increments the failure counter and appends the error; a valid row is
persisted as a new staged transaction and counted, and is appended to the
preview while the preview holds fewer than 10 rows. -/
def importLoop (userId : Nat) (validDate : List Char → Bool) (source : List Char) :
    List (Nat × CSVImportRow) → DB → CSVImportResult → DB × CSVImportResult
  | [], db, res => (db, res)
  | (rowNumber, row) :: rest, db, res =>
    match validateCSVRow validDate row with
    | some err =>
      importLoop userId validDate source rest db
        { res with failed := res.failed + 1, errors := res.errors ++ [(rowNumber, err)] }
    | none =>
      let tx : Transaction :=
        { id := db.nextId, userId := userId, type := row.type, amount := row.amount,
          description := trim row.description, date := row.date,
          category :=
            match row.category with
            | some c => if (trim c).isEmpty then none else some (trim c)
            | none => none,
          source := trim source, imported := true, processed := false }
      let db1 := { db with transactions := db.transactions ++ [tx], nextId := db.nextId + 1 }
      let res1 := { res with successful := res.successful + 1 }
      let res2 :=
        if res1.preview.length < 10 then { res1 with preview := res1.preview ++ [row] } else res1
      importLoop userId validDate source rest db1 res2

/-- importTransactions (lines 432-511): reject an empty row list, otherwise
run the row loop with row numbers counted from 1. -/
def importTransactions (userId : Nat) (csvData : List CSVImportRow) (source : List Char)
    (validDate : List Char → Bool) (db : DB) : Except String (DB × CSVImportResult) :=
  if csvData.isEmpty then .error "No data provided for import"
  else
    .ok (importLoop userId validDate source
      (csvData.enum.map (fun p => (p.1 + 1, p.2))) db ⟨0, 0, [], []⟩)

/-- JS String.prototype.split on the newline character. -/
def splitNl : List Char → List (List Char)
  | [] => [[]]
  | c :: rest =>
    if c = '\n' then [] :: splitNl rest
    else
      match splitNl rest with
      | [] => [[c]]
      | s :: ss => (c :: s) :: ss

/-- The data-row loop of parseCSVContent (lines 551-565): trim each line,
skip blank lines, tokenize and normalize the rest, and keep the rows that
normalize; a row on which mapCSVRow returns null is dropped without any
record (mapCSVRow signals failure by null, never by throwing, so the catch
branch that would fill parseErrors is unreachable). -/
def parseLinesLoop (m : ColumnMapping) : List (List Char) → List CSVImportRow → List CSVImportRow
  | [], acc => acc
  | l :: rest, acc =>
    let line := trim l
    if line.isEmpty then parseLinesLoop m rest acc
    else
      match mapCSVRow (parseCSVLine line) m with
      | some row => parseLinesLoop m rest (acc ++ [row])
      | none => parseLinesLoop m rest acc

/-- parseCSVContent (lines 519-589): reject blank content, content with
fewer than two lines, and a header on which column detection fails; then
normalize the data lines and reject the file when no row survives. -/
def parseCSVContent (csvContent : List Char) : Except String (List CSVImportRow) :=
  if (trim csvContent).isEmpty then .error "Empty CSV file"
  else
    match splitNl (trim csvContent) with
    | [] => .error "CSV file must have a header row and at least one data row"
    | [_] => .error "CSV file must have a header row and at least one data row"
    | hd :: tl =>
      match detectColumnMapping (parseCSVLine hd) with
      | .error e => .error e
      | .ok m =>
        let rows := parseLinesLoop m tl []
        if rows.isEmpty then .error "No valid data rows found in CSV"
        else .ok rows

/-- The composition run by the /api/import/csv route: parse the file
content, then import the parsed rows. -/
def importCSV (userId : Nat) (csvContent : List Char) (source : List Char)
    (validDate : List Char → Bool) (db : DB) : Except String (DB × CSVImportResult) :=
  match parseCSVContent csvContent with
  | .error e => .error e
  | .ok rows => importTransactions userId rows source validDate db

/-- The caller-supplied category override for one transaction id
(categoryMappings?.[transactionId]).  Overrides are modelled as an
association list; a JS override value is a nonempty category id string, so
only its absence is falsy. -/
def lookupOverride (overrides : List (Nat × Nat)) (tid : Nat) : Option Nat :=
  (overrides.find? (fun p => p.1 == tid)).map (fun p => p.2)

/-- Category resolution for an expense transaction (lines 679-693): the
caller override first, then the case-insensitive exact match of the
transaction category hint against the category names, then the first
category of the list.  Returns none exactly when the override and the
match are absent and the category list is empty. -/
def resolveCategoryId (override : Option Nat) (hint : Option (List Char))
    (cats : List Category) : Option Nat :=
  match override with
  | some cid => some cid
  | none =>
    let matched : Option Nat :=
      match hint with
      | some h => (cats.find? (fun cat => lower cat.name == lower h)).map (fun cat => cat.id)
      | none => none
    match matched with
    | some cid => some cid
    | none => cats.head?.map (fun cat => cat.id)

/-- The result record of processTransactions. -/
structure ProcessResults where
  incomeCreated : Nat
  expensesCreated : Nat
  errors : List String
deriving Repr, DecidableEq

/-- The findFirst of the per-id promotion loop (line 658): the first
transaction with the requested id, owned by the user, not yet processed. -/
def unprocessedLookup (u tid : Nat) (l : List Transaction) : Option Transaction :=
  l.find? (fun t => t.id == tid && t.userId == u && !t.processed)

/-- The update that flips processed on the row with the given id
(lines 710-713; id is the unique key of the table). -/
def markProcessed (tid : Nat) (l : List Transaction) : List Transaction :=
  l.map (fun t2 => if t2.id == tid then { t2 with processed := true } else t2)

/-- The per-id loop of processTransactions (lines 656-718): look the id up
among the unprocessed transactions of the user; record an error when the
lookup fails; otherwise write the income record (with the category hint as
its source, defaulting to Imported when the hint is falsy) or the expense
record (with the resolved category id), and flip the processed flag of the
row with that id. -/
def processLoop (userId : Nat) (overrides : List (Nat × Nat)) (userCategories : List Category) :
    List Nat → DB → ProcessResults → DB × ProcessResults
  | [], db, res => (db, res)
  | tid :: rest, db, res =>
    match unprocessedLookup userId tid db.transactions with
    | none =>
      processLoop userId overrides userCategories rest db
        { res with errors := res.errors ++ [s!"Transaction {tid} not found or already processed"] }
    | some t =>
      let step : DB × ProcessResults :=
        match t.type with
        | .income =>
          let src :=
            match t.category with
            | some c => if c.isEmpty then str "Imported" else c
            | none => str "Imported"
          ({ db with incomes := db.incomes ++
              [{ amount := t.amount, source := src, description := t.description,
                 date := t.date, userId := userId }] },
           { res with incomeCreated := res.incomeCreated + 1 })
        | .expense =>
          match resolveCategoryId (lookupOverride overrides tid) t.category userCategories with
          | some cid =>
            ({ db with expenses := db.expenses ++
                [{ amount := t.amount, description := t.description, date := t.date,
                   categoryId := cid, userId := userId }] },
             { res with expensesCreated := res.expensesCreated + 1 })
          | none => (db, res)
      let db2 := { step.1 with transactions := markProcessed tid step.1.transactions }
      processLoop userId overrides userCategories rest db2 step.2

/-- processTransactions (lines 632-731): fail the whole call when the user
has no categories, otherwise run the per-id loop.  An error result leaves
the store untouched.  The none branch of the expense resolution inside the
loop is unreachable here because the category list handed to the loop is
nonempty. -/
def processTransactions (userId : Nat) (transactionIds : List Nat)
    (overrides : List (Nat × Nat)) (db : DB) : Except String (DB × ProcessResults) :=
  let userCategories := db.categories.filter (fun c => c.userId == userId)
  if userCategories.isEmpty then
    .error "No categories found. Please create categories before processing transactions."
  else .ok (processLoop userId overrides userCategories transactionIds db ⟨0, 0, []⟩)

/-- deleteImportedTransactions (lines 739-763): deleteMany over the rows
whose id is in the requested set, owned by the user, and not processed;
returns the deleted-row count and never reports an error for skipped ids. -/
def deleteImportedTransactions (userId : Nat) (transactionIds : List Nat) (db : DB) :
    DB × Nat :=
  let remaining := db.transactions.filter
    (fun t => !(transactionIds.contains t.id && t.userId == userId && !t.processed))
  ({ db with transactions := remaining }, db.transactions.length - remaining.length)

/-! Concrete inputs used by the evaluation theorems and witnesses. -/

/-- An empty store. -/
def emptyDB : DB := ⟨[], [], [], [], 1⟩

/-- The role map of a header whose date, description, amount columns are at
indices 0, 1, 2, with no type or category column. -/
def noTypeMapping : ColumnMapping := ⟨some 0, some 1, some 2, none, none⟩

/-- The role map the assignment loop builds from the header
date,memo,value,debit/credit. -/
def typedMapping : ColumnMapping := ⟨some 0, some 1, some 2, some 3, none⟩

/-- A file with a header that passes role detection, five valid data rows,
and two rows with non-numeric amounts interleaved among them. -/
def partialFailureFile : List Char :=
  str "description,date,amount\nSalary,2024-01-15,5000\nRent,2024-01-16,1200\nBad one,2024-01-17,abc\nGroceries,2024-01-18,150.50\nFuel,2024-01-19,60\nBad two,2024-01-20,xyz\nCoffee,2024-01-21,4.50"

/-- A staged expense transaction awaiting promotion. -/
def stagedExpense : Transaction :=
  ⟨7, 1, .expense, 50, str "Lunch", str "2024-01-15", some (str "Food"), str "bank.csv", true, false⟩

/-- A store holding the staged expense and one category of its owner. -/
def promotionDB : DB := ⟨[stagedExpense], [], [], [⟨3, str "Food", 1⟩], 8⟩

/-- A committed (processed) staged transaction. -/
def committedTx : Transaction :=
  ⟨5, 1, .expense, 10, str "Dinner", str "2024-01-10", none, str "bank.csv", true, true⟩

/-- An uncommitted staged transaction of the same user. -/
def pendingTx : Transaction :=
  ⟨6, 1, .income, 20, str "Refund", str "2024-01-11", none, str "bank.csv", true, false⟩

/-- A store holding one committed and one uncommitted staged transaction. -/
def deletionDB : DB := ⟨[committedTx, pendingTx], [], [], [], 9⟩

/-! Theorems. -/

/-- C1: column role detection is claimed to succeed exactly when the header
assigns all three mandatory roles, including a date column at index 0.  The
code violates this: the header date,description,amount assigns date to
column 0, description to column 1, and amount to column 2, yet the file is
rejected, because the mandatory-role check tests the date index by JS
truthiness (!mapping.date) and the number 0 is falsy — while the other two
roles are compared against undefined on the same line. -/
theorem c1_roles_assigned_but_header_rejected :
    detectRoles (parseCSVLine (str "date,description,amount")) =
      { date := some 0, description := some 1, amount := some 2,
        type := none, category := none } ∧
    detectColumnMapping (parseCSVLine (str "date,description,amount")) =
      .error "Required columns not found: date, description, and amount are mandatory" :=
  ⟨by decide, by decide⟩

/-- C3: with no type column mapped, the row 2024-01-16,Groceries,-150.50 is
claimed to classify as expense with amount 150.50; the code instead rejects
it, because the amount ≤ 0 guard runs before the sign-based classification,
making the negative branch of the classification unreachable (the code
comment at line 894 states the claimed behavior).  The positive half of the
claim holds: 2024-01-15,Salary,5000 classifies as income. -/
theorem c3_negative_amount_rejected_not_classified :
    mapCSVRow (parseCSVLine (str "2024-01-16,Groceries,-150.50")) noTypeMapping = none ∧
    (mapCSVRow (parseCSVLine (str "2024-01-15,Salary,5000")) noTypeMapping).map
      (fun r => (r.type, r.amount)) = some (.income, 5000) :=
  ⟨by decide, by decide⟩

/-- C6: the keyword rule itself matches the code — given the role map that
the assignment loop builds from date,memo,value,debit/credit, the row
01/16/2024,Walmart,150.50,debit classifies as expense and a credit row
classifies as income — but the claimed end-to-end scenario fails: that very
header is rejected by detectColumnMapping, because its date column sits at
index 0 and the mandatory-role check tests the date index by JS truthiness. -/
theorem c6_keyword_rule_but_header_rejected :
    detectRoles (parseCSVLine (str "date,memo,value,debit/credit")) = typedMapping ∧
    detectColumnMapping (parseCSVLine (str "date,memo,value,debit/credit")) =
      .error "Required columns not found: date, description, and amount are mandatory" ∧
    (mapCSVRow (parseCSVLine (str "01/16/2024,Walmart,150.50,debit")) typedMapping).map
      (fun r => r.type) = some .expense ∧
    (mapCSVRow (parseCSVLine (str "01/16/2024,Refund,150.50,credit")) typedMapping).map
      (fun r => r.type) = some .income ∧
    (mapCSVRow (parseCSVLine (str "01/16/2024,Walmart,150.50,debit")) typedMapping).map
      (fun r => r.amount) = some (mkRat 15050 100) :=
  ⟨by decide, by decide, by decide, by decide, by decide⟩

/-- C2 counterexample: on a file with 5 valid rows and 2 invalid-amount rows
interleaved, the claim demands successCount = 5 and failureCount = 2 with the
original row numbers; the pipeline instead reports failureCount = 0 with an
empty failure list, because rows on which normalization fails are dropped
silently during parsing and never reach the import loop. -/
theorem c2_failure_count_refuted :
    (importCSV 1 partialFailureFile (str "bank.csv") (fun _ => true) emptyDB).map
      (fun p => (p.2.successful, p.2.failed, p.2.errors)) = .ok (5, 0, []) := by
  decide

/-- Counter invariant of the import row loop: every row of the list is
counted exactly once, as a success or as a failure. -/
theorem importLoop_counts (u : Nat) (vd : List Char → Bool) (src : List Char) :
    ∀ (l : List (Nat × CSVImportRow)) (db : DB) (res : CSVImportResult),
      (importLoop u vd src l db res).2.successful + (importLoop u vd src l db res).2.failed =
        res.successful + res.failed + l.length := by
  intro l
  induction l with
  | nil => intro db res; simp [importLoop]
  | cons p rest ih =>
    intro db res
    obtain ⟨n, row⟩ := p
    cases hv : validateCSVRow vd row with
    | some err =>
      simp only [importLoop, hv]
      rw [ih]
      simp
      omega
    | none =>
      simp only [importLoop, hv]
      rw [ih]
      by_cases hp : res.preview.length < 10 <;> simp [hp] <;> omega

/-- A normalized row used to instantiate the import theorems. -/
def sampleRow : CSVImportRow := ⟨str "2024-01-15", str "Salary", 5000, none, .income⟩

/-- C2, amended: the failure of a single row never aborts the batch — every row
handed to importTransactions is counted exactly once, as a success or a
failure — but rows that fail normalization (such as non-numeric amounts)
are dropped silently at the parsing stage, so the 5-valid/2-invalid file
reports successCount = 5, failureCount = 0 and an empty failure list, and
the failure entries that do occur are numbered by position in the
parsed-row list rather than by original file line. -/
theorem c2_batch_never_aborts :
    (∀ (u : Nat) (rows : List CSVImportRow) (src : List Char) (vd : List Char → Bool)
       (db db1 : DB) (res : CSVImportResult),
       importTransactions u rows src vd db = .ok (db1, res) →
       res.successful + res.failed = rows.length) ∧
    (importCSV 1 partialFailureFile (str "statement.csv") (fun _ => true) emptyDB).map
      (fun p => (p.2.successful, p.2.failed, p.2.errors)) = .ok (5, 0, []) := by
  constructor
  · intro u rows src vd db db1 res h
    unfold importTransactions at h
    split at h
    · exact absurd h (by simp)
    · rw [Except.ok.injEq] at h
      have h2 := congrArg Prod.snd h
      have hc := importLoop_counts u vd src (rows.enum.map (fun p => (p.1 + 1, p.2))) db ⟨0, 0, [], []⟩
      rw [h2] at hc
      simpa using hc
  · decide

/-- Witness for C2 at a concrete input: a one-row import counts its row. -/
theorem c2_batch_never_aborts_witness :
    ∃ db res, importTransactions 1 [sampleRow] (str "s") (fun _ => true) emptyDB = .ok (db, res)
      ∧ res.successful + res.failed = 1 := by
  refine ⟨_, _, rfl, ?_⟩
  exact c2_batch_never_aborts.1 1 [sampleRow] (str "s") (fun _ => true) emptyDB _ _ rfl

/-- Characterization of a successful mapCSVRow run: the amount token parses
to a strictly positive value, the stored amount is its absolute value, and
the kind is the decideKind of the type token and the parsed value. -/
theorem mapCSVRow_some_spec (values : List (List Char)) (m : ColumnMapping) (r : CSVImportRow)
    (h : mapCSVRow values m = some r) :
    ∃ a : ℚ, parseFloat ((amountTok values m).getD []) = some a ∧ 0 < a ∧
      r.amount = |a| ∧ r.type = decideKind m (typeTok values m) a := by
  simp only [mapCSVRow] at h
  split at h
  · exact absurd h (by simp)
  · split at h
    · exact absurd h (by simp)
    · rename_i a hp
      split at h
      · exact absurd h (by simp)
      · rename_i hle
        rw [Option.some.injEq] at h
        subst h
        exact ⟨a, hp, lt_of_not_le hle, rfl, rfl⟩

/-- A row that validates has a strictly positive amount. -/
theorem validateCSVRow_none_pos (vd : List Char → Bool) (row : CSVImportRow)
    (h : validateCSVRow vd row = none) : 0 < row.amount := by
  unfold validateCSVRow at h
  split at h
  · exact absurd h (by simp)
  · split at h
    · exact absurd h (by simp)
    · split at h
      · exact absurd h (by simp)
      · rename_i hle
        exact lt_of_not_le hle

/-- Every transaction present after the import row loop either was already
in the store or has a strictly positive amount. -/
theorem importLoop_new_tx_pos (u : Nat) (vd : List Char → Bool) (src : List Char) :
    ∀ (l : List (Nat × CSVImportRow)) (db : DB) (res : CSVImportResult)
      (t : Transaction), t ∈ (importLoop u vd src l db res).1.transactions →
      t ∈ db.transactions ∨ 0 < t.amount := by
  intro l
  induction l with
  | nil => intro db res t ht; simpa [importLoop] using Or.inl ht
  | cons p rest ih =>
    intro db res t ht
    obtain ⟨n, row⟩ := p
    cases hv : validateCSVRow vd row with
    | some err =>
      simp only [importLoop, hv] at ht
      exact ih _ _ _ ht
    | none =>
      simp only [importLoop, hv] at ht
      rcases ih _ _ _ ht with hmem | hpos
      · simp only [List.mem_append, List.mem_singleton] at hmem
        rcases hmem with h1 | h2
        · exact Or.inl h1
        · right
          rw [h2]
          exact validateCSVRow_none_pos vd row hv
      · exact Or.inr hpos

/-- Every transaction a successful importTransactions call adds to the
store has a strictly positive amount. -/
theorem importTransactions_new_tx_pos (u : Nat) (rows : List CSVImportRow) (src : List Char)
    (vd : List Char → Bool) (db db1 : DB) (res : CSVImportResult)
    (h : importTransactions u rows src vd db = .ok (db1, res)) :
    ∀ t ∈ db1.transactions, t ∈ db.transactions ∨ 0 < t.amount := by
  intro t ht
  unfold importTransactions at h
  split at h
  · exact absurd h (by simp)
  · rw [Except.ok.injEq] at h
    have h1 := congrArg Prod.fst h
    simp only [] at h1
    rw [← h1] at ht
    exact importLoop_new_tx_pos u vd src _ db ⟨0, 0, [], []⟩ t ht

/-- C9: staged transactions created by the pipeline always carry a strictly
positive amount: mapCSVRow only emits rows with a positive magnitude, and
every transaction importTransactions (or the whole route composition)
adds to the store has a strictly positive amount. -/
theorem c9_amount_positive :
    (∀ (values : List (List Char)) (m : ColumnMapping) (r : CSVImportRow),
        mapCSVRow values m = some r → 0 < r.amount) ∧
    (∀ (u : Nat) (rows : List CSVImportRow) (src : List Char) (vd : List Char → Bool)
        (db db1 : DB) (res : CSVImportResult),
        importTransactions u rows src vd db = .ok (db1, res) →
        ∀ t ∈ db1.transactions, t ∈ db.transactions ∨ 0 < t.amount) ∧
    (∀ (u : Nat) (content src : List Char) (vd : List Char → Bool)
        (db db1 : DB) (res : CSVImportResult),
        importCSV u content src vd db = .ok (db1, res) →
        ∀ t ∈ db1.transactions, t ∈ db.transactions ∨ 0 < t.amount) := by
  refine ⟨?_, ?_, ?_⟩
  · intro values m r h
    obtain ⟨a, _, hpos, hamt, _⟩ := mapCSVRow_some_spec values m r h
    rw [hamt]
    exact abs_pos.mpr (ne_of_gt hpos)
  · exact importTransactions_new_tx_pos
  · intro u content src vd db db1 res h t ht
    unfold importCSV at h
    split at h
    · exact absurd h (by simp)
    · rename_i rows hrows
      exact importTransactions_new_tx_pos u rows src vd db db1 res h t ht

/-- A mapped row used to instantiate the positivity theorem. -/
def fuelRow : CSVImportRow := ⟨str "2024-01-19", str "Fuel", 60, none, .income⟩

/-- Witness for C9 at a concrete input. -/
theorem c9_amount_positive_witness : 0 < fuelRow.amount :=
  c9_amount_positive.1 (parseCSVLine (str "2024-01-19,Fuel,60")) noTypeMapping fuelRow (by decide)

/-- C10: when a type column is mapped, a non-empty type token that matches
no income and no expense keyword leaves the row at the built-in expense
default; an empty (or out-of-range) type token makes classification fall
back to the sign of the parsed amount even though the type column is
mapped. -/
theorem c10_default_and_empty_fallback :
    (∀ (values : List (List Char)) (m : ColumnMapping) (r : CSVImportRow) (ts : List Char),
        mapCSVRow values m = some r →
        typeTok values m = some ts → ts ≠ [] →
        incomeKeywords.any (fun k => containsSub ts k) = false →
        expenseKeywords.any (fun k => containsSub ts k) = false →
        r.type = .expense) ∧
    (∀ (values : List (List Char)) (m : ColumnMapping) (r : CSVImportRow) (a : ℚ),
        mapCSVRow values m = some r → m.type.isSome = true →
        strFalsy (typeTok values m) = true →
        parseFloat ((amountTok values m).getD []) = some a →
        r.type = (if 0 < a then TxKind.income else TxKind.expense)) := by
  constructor
  · intro values m r ts hmap hts htne hinc hexp
    obtain ⟨a, _, _, _, hty⟩ := mapCSVRow_some_spec values m r hmap
    have hsome : m.type.isSome = true := by
      rcases hm : m.type with _ | i
      · simp [typeTok, hm, getTok] at hts
      · rfl
    have hemp : ts.isEmpty = false := by
      cases ts with
      | nil => exact absurd rfl htne
      | cons c cs => rfl
    rw [hty, decideKind, hts]
    simp [hsome, strFalsy, hemp, hinc, hexp]
  · intro values m r a hmap hsome hfal hp
    obtain ⟨a2, hp2, _, _, hty⟩ := mapCSVRow_some_spec values m r hmap
    rw [hp] at hp2
    rw [Option.some.injEq] at hp2
    subst hp2
    rw [hty, decideKind, hfal]
    simp

/-- The normalized Walmart row with an unrecognized type token. -/
def walmartUnknownTypeRow : CSVImportRow :=
  ⟨str "01/16/2024", str "Walmart", mkRat 15050 100, none, .expense⟩

/-- The normalized Walmart row with an empty type token. -/
def walmartEmptyTypeRow : CSVImportRow :=
  ⟨str "01/16/2024", str "Walmart", mkRat 15050 100, none, .income⟩

/-- Witness for C10 at concrete inputs: an unmatched token defaults to
expense; an empty token falls back to the sign rule and the positive
amount gives income. -/
theorem c10_default_and_empty_fallback_witness :
    walmartUnknownTypeRow.type = .expense ∧
    walmartEmptyTypeRow.type = (if 0 < (mkRat 15050 100 : ℚ) then TxKind.income else TxKind.expense) :=
  ⟨c10_default_and_empty_fallback.1
      (parseCSVLine (str "01/16/2024,Walmart,150.50,bizarre")) typedMapping
      walmartUnknownTypeRow (str "bizarre") (by decide) (by decide) (by decide)
      (by decide) (by decide),
   c10_default_and_empty_fallback.2
      (parseCSVLine (str "01/16/2024,Walmart,150.50,")) typedMapping
      walmartEmptyTypeRow (mkRat 15050 100) (by decide) (by decide) (by decide) (by decide)⟩

/-- C8: bulk deletion removes exactly the requested rows that are owned by
the caller and still uncommitted; committed rows are silently kept, the
other tables are untouched, the call never reports an error (its result is
always the remaining store plus a count), and repeating the same call
removes nothing further. -/
theorem c8_delete_only_uncommitted (u : Nat) (ids : List Nat) (db : DB) :
    ((deleteImportedTransactions u ids db).1.incomes = db.incomes ∧
     (deleteImportedTransactions u ids db).1.expenses = db.expenses ∧
     (deleteImportedTransactions u ids db).1.categories = db.categories ∧
     (deleteImportedTransactions u ids db).1.nextId = db.nextId) ∧
    (∀ t ∈ db.transactions, t.processed = true →
       t ∈ (deleteImportedTransactions u ids db).1.transactions) ∧
    (∀ t ∈ db.transactions, t ∉ (deleteImportedTransactions u ids db).1.transactions →
       t.id ∈ ids ∧ t.userId = u ∧ t.processed = false) ∧
    (∀ t ∈ (deleteImportedTransactions u ids db).1.transactions, t ∈ db.transactions) ∧
    deleteImportedTransactions u ids (deleteImportedTransactions u ids db).1 =
      ((deleteImportedTransactions u ids db).1, 0) := by
  refine ⟨⟨rfl, rfl, rfl, rfl⟩, ?_, ?_, ?_, ?_⟩
  · intro t ht hproc
    simp only [deleteImportedTransactions, List.mem_filter]
    exact ⟨ht, by simp [hproc]⟩
  · intro t ht hnot
    by_cases hp : (ids.contains t.id && t.userId == u && !t.processed) = true
    · simp only [Bool.and_eq_true, beq_iff_eq, Bool.not_eq_true'] at hp
      obtain ⟨⟨hc, hu⟩, hpr⟩ := hp
      exact ⟨by simpa using hc, hu, hpr⟩
    · exfalso
      apply hnot
      simp only [deleteImportedTransactions, List.mem_filter]
      refine ⟨ht, ?_⟩
      simp only [Bool.not_eq_true']
      exact Bool.eq_false_iff.mpr hp
  · intro t ht
    simp only [deleteImportedTransactions, List.mem_filter] at ht
    exact ht.1
  · simp only [deleteImportedTransactions]
    rw [List.filter_filter]
    simp

/-- Witness for C8 at a concrete input: deleting a set containing one
committed and one uncommitted id keeps the committed row. -/
theorem c8_delete_only_uncommitted_witness :
    committedTx ∈ (deleteImportedTransactions 1 [5, 6] deletionDB).1.transactions :=
  (c8_delete_only_uncommitted 1 [5, 6] deletionDB).2.1 committedTx (by decide) (by decide)

/-- The first element surviving dropWhile fails the predicate. -/
theorem head?_dropWhile (p : Char → Bool) :
    ∀ (l : List Char) (c : Char), (l.dropWhile p).head? = some c → p c = false := by
  intro l
  induction l with
  | nil => intro c h; simp [List.dropWhile] at h
  | cons x xs ih =>
    intro c h
    by_cases hx : p x
    · rw [List.dropWhile_cons_of_pos hx] at h
      exact ih c h
    · rw [List.dropWhile_cons_of_neg hx] at h
      simp only [List.head?_cons, Option.some.injEq] at h
      rw [← h]
      exact Bool.eq_false_iff.mpr hx

/-- dropWhile keeps the last element when it keeps anything at all. -/
theorem getLast?_dropWhile_ne (p : Char → Bool) :
    ∀ (l : List Char), l.dropWhile p ≠ [] → (l.dropWhile p).getLast? = l.getLast? := by
  intro l
  induction l with
  | nil => intro h; simp [List.dropWhile] at h
  | cons x xs ih =>
    intro h
    by_cases hx : p x
    · rw [List.dropWhile_cons_of_pos hx] at h ⊢
      rw [ih h]
      have hxs : xs ≠ [] := by
        intro he
        rw [he] at h
        simp [List.dropWhile] at h
      cases xs with
      | nil => exact absurd rfl hxs
      | cons y ys => simp [List.getLast?_cons_cons]
    · rw [List.dropWhile_cons_of_neg hx]

/-- The first character of a trimmed string is not whitespace. -/
theorem trim_head (l : List Char) (c : Char) (h : (trim l).head? = some c) : isWS c = false := by
  rw [trim] at h
  rw [List.head?_reverse] at h
  cases hb : (l.dropWhile isWS).reverse.dropWhile isWS with
  | nil => rw [hb] at h; simp at h
  | cons y ys =>
    rw [getLast?_dropWhile_ne isWS _ (by rw [hb]; exact List.cons_ne_nil y ys)] at h
    rw [List.getLast?_reverse] at h
    exact head?_dropWhile isWS l c h

/-- The last character of a trimmed string is not whitespace. -/
theorem trim_last (l : List Char) (c : Char) (h : (trim l).getLast? = some c) : isWS c = false := by
  rw [trim] at h
  rw [List.getLast?_reverse] at h
  exact head?_dropWhile isWS _ c h

/-- Every token the tokenizer loop pushes satisfies any property of trimmed
strings, provided the already-pushed tokens do. -/
theorem parseCSVLineAux_tokens (P : List Char → Prop) (hP : ∀ s, P (trim s)) :
    ∀ (line : List Char) (inq : Bool) (cur : List Char) (vals : List (List Char)),
      (∀ t ∈ vals, P t) → ∀ t ∈ parseCSVLineAux line inq cur vals, P t := by
  intro line
  induction line with
  | nil =>
    intro inq cur vals hv t ht
    simp only [parseCSVLineAux, List.mem_append, List.mem_singleton] at ht
    rcases ht with h1 | h2
    · exact hv t h1
    · rw [h2]; exact hP cur
  | cons c rest ih =>
    intro inq cur vals hv t ht
    simp only [parseCSVLineAux] at ht
    split at ht
    · exact ih _ _ _ hv t ht
    · split at ht
      · refine ih _ _ _ ?_ t ht
        intro t2 ht2
        simp only [List.mem_append, List.mem_singleton] at ht2
        rcases ht2 with h1 | h2
        · exact hv t2 h1
        · rw [h2]; exact hP cur
      · exact ih _ _ _ hv t ht

/-- C7: the tokenizer is total; an empty line yields a single empty token;
every produced token is free of leading and trailing whitespace; and the
quoted-field line tokenizes to exactly its four fields with the embedded
comma kept verbatim. -/
theorem c7_tokenizer_contract :
    parseCSVLine [] = [[]] ∧
    (∀ (line t : List Char), t ∈ parseCSVLine line →
       (∀ c, t.head? = some c → isWS c = false) ∧
       (∀ c, t.getLast? = some c → isWS c = false)) ∧
    parseCSVLine (str "2024-01-01,\"Coffee, and Bagels\",4.50,expense") =
      [str "2024-01-01", str "Coffee, and Bagels", str "4.50", str "expense"] := by
  refine ⟨by decide, ?_, by decide⟩
  intro line t ht
  exact parseCSVLineAux_tokens
    (fun s => (∀ c, s.head? = some c → isWS c = false) ∧
              (∀ c, s.getLast? = some c → isWS c = false))
    (fun s => ⟨trim_head s, trim_last s⟩)
    line false [] [] (by intro t2 ht2; simp at ht2) t ht

/-- Witness for C7 at a concrete input: the token produced from the padded
field has non-whitespace first and last characters. -/
theorem c7_tokenizer_contract_witness : isWS '4' = false ∧ isWS '0' = false :=
  ⟨(c7_tokenizer_contract.2.1 (str "a, 4.50 ,b") (str "4.50") (by decide)).1 '4' (by decide),
   (c7_tokenizer_contract.2.1 (str "a, 4.50 ,b") (str "4.50") (by decide)).2 '0' (by decide)⟩

/-- After the processed flag is flipped on an id, the promotion lookup of
that id finds nothing. -/
theorem unprocessedLookup_markProcessed (u tid : Nat) :
    ∀ (l : List Transaction), unprocessedLookup u tid (markProcessed tid l) = none := by
  intro l
  induction l with
  | nil => rfl
  | cons x xs ih =>
    simp only [markProcessed, List.map_cons, unprocessedLookup, List.find?_cons] at *
    by_cases hx : (x.id == tid) = true
    · rw [if_pos hx]
      simpa [hx] using ih
    · rw [if_neg hx]
      simpa [hx] using ih

/-- Every row of the marked list with the marked id is processed. -/
theorem markProcessed_mem (tid : Nat) (l : List Transaction) :
    ∀ t ∈ markProcessed tid l, t.id = tid → t.processed = true := by
  intro t ht htid
  simp only [markProcessed, List.mem_map] at ht
  obtain ⟨x, hx, he⟩ := ht
  by_cases h : (x.id == tid) = true
  · rw [if_pos h] at he
    rw [← he]
  · rw [if_neg h] at he
    rw [← he] at htid
    exact absurd (beq_iff_eq.mpr htid) h

/-- Category resolution always succeeds on a nonempty category list. -/
theorem resolveCategoryId_isSome (ov : Option Nat) (hint : Option (List Char))
    (c0 : Category) (tl : List Category) :
    ∃ cid, resolveCategoryId ov hint (c0 :: tl) = some cid := by
  rcases ov with _ | o
  · simp only [resolveCategoryId]
    rcases hint with _ | h
    · exact ⟨c0.id, rfl⟩
    · cases hf : (c0 :: tl).find? (fun cat => lower cat.name == lower h) with
      | none => simp [hf]
      | some cat => simp [hf]
  · exact ⟨o, rfl⟩

/-- With a nonempty category table for the user, processTransactions runs
the per-id loop on the filtered categories. -/
theorem processTransactions_ok (u : Nat) (ids : List Nat) (ov : List (Nat × Nat)) (db : DB)
    (hcats : (db.categories.filter (fun c => c.userId == u)).isEmpty = false) :
    processTransactions u ids ov db =
      .ok (processLoop u ov (db.categories.filter (fun c => c.userId == u)) ids db ⟨0, 0, []⟩) := by
  simp [processTransactions, hcats]

/-- One loop step on a found income transaction. -/
theorem processLoop_step_income (u tid : Nat) (ov : List (Nat × Nat)) (cats : List Category)
    (rest : List Nat) (db : DB) (res : ProcessResults) (t : Transaction)
    (hfind : unprocessedLookup u tid db.transactions = some t) (ht : t.type = .income) :
    processLoop u ov cats (tid :: rest) db res =
      processLoop u ov cats rest
        { db with
            incomes := db.incomes ++
              [{ amount := t.amount,
                 source := match t.category with
                   | some c => if c.isEmpty then str "Imported" else c
                   | none => str "Imported",
                 description := t.description, date := t.date, userId := u }],
            transactions := markProcessed tid db.transactions }
        { res with incomeCreated := res.incomeCreated + 1 } := by
  simp only [processLoop, hfind, ht]

/-- One loop step on a found expense transaction with resolvable category. -/
theorem processLoop_step_expense (u tid : Nat) (ov : List (Nat × Nat)) (cats : List Category)
    (rest : List Nat) (db : DB) (res : ProcessResults) (t : Transaction) (cid : Nat)
    (hfind : unprocessedLookup u tid db.transactions = some t) (ht : t.type = .expense)
    (hcid : resolveCategoryId (lookupOverride ov tid) t.category cats = some cid) :
    processLoop u ov cats (tid :: rest) db res =
      processLoop u ov cats rest
        { db with
            expenses := db.expenses ++
              [{ amount := t.amount, description := t.description, date := t.date,
                 categoryId := cid, userId := u }],
            transactions := markProcessed tid db.transactions }
        { res with expensesCreated := res.expensesCreated + 1 } := by
  simp only [processLoop, hfind, ht, hcid]

/-- One loop step on an id whose lookup fails. -/
theorem processLoop_step_missing (u tid : Nat) (ov : List (Nat × Nat)) (cats : List Category)
    (rest : List Nat) (db : DB) (res : ProcessResults)
    (hfind : unprocessedLookup u tid db.transactions = none) :
    processLoop u ov cats (tid :: rest) db res =
      processLoop u ov cats rest db
        { res with errors := res.errors ++ [s!"Transaction {tid} not found or already processed"] } := by
  simp only [processLoop, hfind]

/-- C4: promoting the same staged id twice — in one call or in two
successive calls — creates exactly one ledger entry.  The first successful
promotion writes the income or expense record and flips the processed flag
of the staged transaction; the second attempt finds no unprocessed row with
that id, records one error, and leaves the store unchanged. -/
theorem c4_promote_twice_one_entry (db : DB) (u tid : Nat) (t : Transaction)
    (hfind : unprocessedLookup u tid db.transactions = some t)
    (hcats : (db.categories.filter (fun c => c.userId == u)).isEmpty = false) :
    (∃ db1 res1, processTransactions u [tid, tid] [] db = .ok (db1, res1) ∧
       db1.incomes.length + db1.expenses.length =
         db.incomes.length + db.expenses.length + 1 ∧
       res1.incomeCreated + res1.expensesCreated = 1 ∧
       res1.errors.length = 1 ∧
       (∀ t2 ∈ db1.transactions, t2.id = tid → t2.processed = true)) ∧
    (∃ dbA resA dbB resB,
       processTransactions u [tid] [] db = .ok (dbA, resA) ∧
       processTransactions u [tid] [] dbA = .ok (dbB, resB) ∧
       dbA.incomes.length + dbA.expenses.length =
         db.incomes.length + db.expenses.length + 1 ∧
       resA.incomeCreated + resA.expensesCreated = 1 ∧ resA.errors = [] ∧
       dbB = dbA ∧
       resB.incomeCreated + resB.expensesCreated = 0 ∧ resB.errors.length = 1 ∧
       (∀ t2 ∈ dbA.transactions, t2.id = tid → t2.processed = true)) := by
  obtain ⟨c0, tl, hcl⟩ : ∃ c0 tl,
      db.categories.filter (fun c => c.userId == u) = c0 :: tl := by
    cases hc : db.categories.filter (fun c => c.userId == u) with
    | nil => rw [hc] at hcats; simp at hcats
    | cons c0 tl => exact ⟨c0, tl, rfl⟩
  have hstep : ∃ (dbI : DB) (resF : ProcessResults → ProcessResults),
      (∀ (rest : List Nat) (res : ProcessResults),
        processLoop u [] (db.categories.filter (fun c => c.userId == u))
            (tid :: rest) db res =
          processLoop u [] (db.categories.filter (fun c => c.userId == u))
            rest dbI (resF res)) ∧
      dbI.transactions = markProcessed tid db.transactions ∧
      dbI.categories = db.categories ∧
      dbI.incomes.length + dbI.expenses.length =
        db.incomes.length + db.expenses.length + 1 ∧
      (∀ res, (resF res).incomeCreated + (resF res).expensesCreated =
          res.incomeCreated + res.expensesCreated + 1 ∧ (resF res).errors = res.errors) := by
    cases ht : t.type with
    | income =>
      refine ⟨_, _,
        fun rest res => processLoop_step_income u tid []
          (db.categories.filter (fun c => c.userId == u)) rest db res t hfind ht,
        rfl, rfl, by simp; omega, ?_⟩
      intro res
      exact ⟨by simp; omega, rfl⟩
    | expense =>
      have hex := resolveCategoryId_isSome (lookupOverride [] tid) t.category c0 tl
      rw [← hcl] at hex
      obtain ⟨cid, hcid⟩ := hex
      refine ⟨_, _,
        fun rest res => processLoop_step_expense u tid []
          (db.categories.filter (fun c => c.userId == u)) rest db res t cid hfind ht hcid,
        rfl, rfl, by simp; omega, ?_⟩
      intro res
      exact ⟨by simp; omega, rfl⟩
  obtain ⟨dbI, resF, hrun, htx, hcat, hlen, hres⟩ := hstep
  have hfind2 : unprocessedLookup u tid dbI.transactions = none := by
    rw [htx]; exact unprocessedLookup_markProcessed u tid _
  have hmark : ∀ t2 ∈ dbI.transactions, t2.id = tid → t2.processed = true := by
    rw [htx]; exact markProcessed_mem tid _
  constructor
  · refine ⟨dbI,
      { resF ⟨0, 0, []⟩ with errors := (resF ⟨0, 0, []⟩).errors ++
          [s!"Transaction {tid} not found or already processed"] }, ?_, hlen, ?_, ?_, hmark⟩
    · rw [processTransactions_ok u [tid, tid] [] db hcats, hrun [tid] ⟨0, 0, []⟩,
        processLoop_step_missing u tid [] _ [] dbI _ hfind2]
      rfl
    · have h1 := (hres ⟨0, 0, []⟩).1
      simpa using h1
    · have h2 := (hres ⟨0, 0, []⟩).2
      simp [h2]
  · have hcats2 : (dbI.categories.filter (fun c => c.userId == u)).isEmpty = false := by
      rw [hcat]; exact hcats
    refine ⟨dbI, resF ⟨0, 0, []⟩, dbI,
      ⟨0, 0, [s!"Transaction {tid} not found or already processed"]⟩, ?_, ?_, hlen, ?_, ?_,
      rfl, rfl, rfl, hmark⟩
    · rw [processTransactions_ok u [tid] [] db hcats, hrun [] ⟨0, 0, []⟩]
      rfl
    · rw [processTransactions_ok u [tid] [] dbI hcats2]
      rw [hcat, processLoop_step_missing u tid [] _ [] dbI _ hfind2]
      rfl
    · have h1 := (hres ⟨0, 0, []⟩).1
      simpa using h1
    · exact (hres ⟨0, 0, []⟩).2

/-- Witness for C4 at a concrete input: one staged expense, one category. -/
theorem c4_promote_twice_one_entry_witness :
    ∃ db1 res1, processTransactions 1 [7, 7] [] promotionDB = .ok (db1, res1) ∧
      db1.incomes.length + db1.expenses.length =
        promotionDB.incomes.length + promotionDB.expenses.length + 1 ∧
      res1.incomeCreated + res1.expensesCreated = 1 ∧
      res1.errors.length = 1 ∧
      (∀ t2 ∈ db1.transactions, t2.id = 7 → t2.processed = true) :=
  (c4_promote_twice_one_entry promotionDB 1 7 stagedExpense (by decide) (by decide)).1

/-- C5: for an expense promotion the category id is resolved in the strict
order (1) caller override for the id, (2) first case-insensitive exact
match of the category hint against the category names, (3) the first
category; with zero categories the whole promote call fails up front
before any id is processed; and the expense record written by a promotion
carries exactly the resolved id. -/
theorem c5_category_resolution_order :
    (∀ (cid : Nat) (hint : Option (List Char)) (cats : List Category),
        resolveCategoryId (some cid) hint cats = some cid) ∧
    (∀ (hint : List Char) (cats : List Category) (cat : Category),
        cats.find? (fun c => lower c.name == lower hint) = some cat →
        resolveCategoryId none (some hint) cats = some cat.id) ∧
    (∀ (hint : List Char) (c0 : Category) (tl : List Category),
        (c0 :: tl).find? (fun c => lower c.name == lower hint) = none →
        resolveCategoryId none (some hint) (c0 :: tl) = some c0.id) ∧
    (∀ (c0 : Category) (tl : List Category),
        resolveCategoryId none none (c0 :: tl) = some c0.id) ∧
    (∀ (u : Nat) (ids : List Nat) (ov : List (Nat × Nat)) (db : DB),
        db.categories.filter (fun c => c.userId == u) = [] →
        processTransactions u ids ov db =
          .error "No categories found. Please create categories before processing transactions.") ∧
    (∀ (u tid : Nat) (ov : List (Nat × Nat)) (db : DB) (t : Transaction) (cid : Nat),
        unprocessedLookup u tid db.transactions = some t →
        t.type = .expense →
        resolveCategoryId (lookupOverride ov tid) t.category
            (db.categories.filter (fun c => c.userId == u)) = some cid →
        (db.categories.filter (fun c => c.userId == u)).isEmpty = false →
        ∃ db1 res, processTransactions u [tid] ov db = .ok (db1, res) ∧
          db1.expenses = db.expenses ++
            [{ amount := t.amount, description := t.description, date := t.date,
               categoryId := cid, userId := u }]) := by
  refine ⟨fun cid hint cats => rfl, ?_, ?_, fun c0 tl => rfl, ?_, ?_⟩
  · intro hint cats cat h
    simp [resolveCategoryId, h]
  · intro hint c0 tl h
    simp [resolveCategoryId, h]
  · intro u ids ov db h
    simp [processTransactions, h]
  · intro u tid ov db t cid hfind ht hcid hne
    refine ⟨{ db with
        expenses := db.expenses ++
          [{ amount := t.amount, description := t.description, date := t.date,
             categoryId := cid, userId := u }],
        transactions := markProcessed tid db.transactions }, ⟨0, 1, []⟩, ?_, rfl⟩
    rw [processTransactions_ok u [tid] ov db hne,
      processLoop_step_expense u tid ov _ [] db ⟨0, 0, []⟩ t cid hfind ht hcid]
    rfl

/-- The store of the promotion scenario with its category table emptied. -/
def noCatsDB : DB := ⟨[stagedExpense], [], [], [], 8⟩

/-- Two categories of user 1 used by the resolution witness. -/
def userCats : List Category := [⟨3, str "Food", 1⟩, ⟨4, str "Rent", 1⟩]

/-- Witness for C5 at concrete inputs: an override wins; a case-insensitive
hint match wins next; the typo hint Foood falls back to the first category;
zero categories fail the whole call; and the promoted expense carries the
resolved id. -/
theorem c5_category_resolution_order_witness :
    resolveCategoryId (some 9) (some (str "Rent")) userCats = some 9 ∧
    resolveCategoryId none (some (str "rEnT")) userCats = some 4 ∧
    resolveCategoryId none (some (str "Foood")) userCats = some 3 ∧
    processTransactions 1 [7] [] noCatsDB =
      .error "No categories found. Please create categories before processing transactions." ∧
    (∃ db1 res, processTransactions 1 [7] [] promotionDB = .ok (db1, res) ∧
       db1.expenses = promotionDB.expenses ++
         [{ amount := stagedExpense.amount, description := stagedExpense.description,
            date := stagedExpense.date, categoryId := 3, userId := 1 }]) :=
  ⟨c5_category_resolution_order.1 9 (some (str "Rent")) userCats,
   c5_category_resolution_order.2.1 (str "rEnT") userCats ⟨4, str "Rent", 1⟩ (by decide),
   c5_category_resolution_order.2.2.1 (str "Foood") ⟨3, str "Food", 1⟩ [⟨4, str "Rent", 1⟩]
     (by decide),
   c5_category_resolution_order.2.2.2.2.1 1 [7] [] noCatsDB (by decide),
   c5_category_resolution_order.2.2.2.2.2 1 7 [] promotionDB stagedExpense 3
     (by decide) (by decide) (by decide) (by decide)⟩

end CSVImport
